import Mathlib

/-!
Verification development for the environment-setup agent
(`src/environment_setup_agent.py`).

The program is a single-file Python tool.  We shallowly embed its pure
core: the tool registry (`tools_cache`), the regex-based tool detector
(`detect_tools`), the README heading-driven section extractor
(`parse_readme`), project discovery (`discover_projects`) and the
installer (`check_tool_installed` / `install_tool` plus the
check-then-install pattern of its callers).

External effects are modelled explicitly:
* the shell is an oracle `shell : String → Bool` giving, for each command
  string, whether running it exits with status zero (`subprocess.run`'s
  `returncode == 0`; an exception while spawning is also `false`, matching
  the `except` branches that return `False`);
* installer functions additionally return the list of tools whose
  installation command was passed to the shell, in execution order, so
  that "command X was never run" is expressible;
* the markdown renderer (`markdown` + `BeautifulSoup`) is external glue;
  rendered documents are modelled as the flat list of top-level HTML
  nodes it produces (headings, paragraphs, `pre`/`code` blocks, lists,
  bare text), which is the structure `parse_readme` traverses;
* GitHub access is modelled by a listing of top-level entries, each
  carrying the outcome of probing `<dir>/README.md` (found with decoded
  content, not found, or a transient remote failure — both of the latter
  raise in the source and are caught by the per-directory `except`).

Character-level caveat: Python's `re` with `str` patterns uses Unicode
word characters and `str.lower()` full case mapping; the embedding uses
the ASCII fragment (`Char.toLower`, ASCII `[A-Za-z0-9_]`), which is exact
on the ASCII texts the claims quantify over.
-/

/-! ## String helpers (Python `in`, `.lower()`, `.strip()`) -/

/-- Boolean list-prefix test (used to implement Python's substring `in`). -/
def listPrefix : List Char → List Char → Bool
  | [], _ => true
  | _ :: _, [] => false
  | a :: as, b :: bs => a == b && listPrefix as bs

/-- Does `needle` occur as a contiguous sublist of the second list?
Implements Python's `needle in hay` on strings. -/
def listInfix (needle : List Char) : List Char → Bool
  | [] => listPrefix needle []
  | b :: bs => listPrefix needle (b :: bs) || listInfix needle bs

/-- Python's `needle in hay` for strings. -/
def strContains (hay needle : String) : Bool :=
  listInfix needle.data hay.data

/-- Python's `str.lower()` (ASCII fragment). -/
def lowerStr (s : String) : String :=
  ⟨s.data.map Char.toLower⟩

/-- Python's `str.strip()`: remove leading and trailing whitespace
(list-based so that it evaluates by kernel reduction). -/
def pyStrip (s : String) : String :=
  ⟨((s.data.dropWhile Char.isWhitespace).reverse.dropWhile Char.isWhitespace).reverse⟩

/-- A word character in the sense of Python's regex `\w`, ASCII fragment:
`[A-Za-z0-9_]`. -/
def isWordChar (c : Char) : Bool :=
  (65 ≤ c.toNat && c.toNat ≤ 90) || (97 ≤ c.toNat && c.toNat ≤ 122) ||
    (48 ≤ c.toNat && c.toNat ≤ 57) || c == '_'

/-! ## Regex engine

A small backtracking matcher covering exactly the constructs appearing in
`detect_tools`'s pattern table: literal characters, character classes
(`[ -]`), sequencing, alternation (`|`), optional groups (`(?:...)?`,
`?`), and the word-boundary anchor `\b`.  `re.IGNORECASE` is modelled by
lowercasing the input character before comparing with the (lowercase)
pattern character.  `re.search` tries a match at every start position. -/

inductive RE where
  | eps
  | chr (c : Char)
  | cls (cs : List Char)
  | seq (a b : RE)
  | alt (a b : RE)
  | opt (a : RE)
  | wb
deriving DecidableEq

/-- Python `\b`: at the current position (between `prev` and the head of
the remaining input), exactly one side is a word character. -/
def isBoundary (prev : Option Char) (s : List Char) : Bool :=
  let pw := match prev with | none => false | some c => isWordChar c
  let nw := match s with | [] => false | c :: _ => isWordChar c
  pw != nw

/-- Backtracking matcher in continuation style.  `prev` is the character
just before the current position (for `\b`), `k` the continuation. -/
def matchRE : RE → Option Char → List Char → (Option Char → List Char → Bool) → Bool
  | .eps, prev, s, k => k prev s
  | .chr c, _prev, s, k =>
    match s with
    | [] => false
    | a :: rest => a.toLower == c && k (some a) rest
  | .cls cs, _prev, s, k =>
    match s with
    | [] => false
    | a :: rest => cs.contains a.toLower && k (some a) rest
  | .seq x y, prev, s, k => matchRE x prev s (fun p r => matchRE y p r k)
  | .alt x y, prev, s, k => matchRE x prev s k || matchRE y prev s k
  | .opt x, prev, s, k => matchRE x prev s k || k prev s
  | .wb, prev, s, k => isBoundary prev s && k prev s

/-- Implements `re.search`: try to match at each start position in turn. -/
def searchFrom (re : RE) : Option Char → List Char → Bool
  | prev, [] => matchRE re prev [] (fun _ _ => true)
  | prev, c :: rest =>
    matchRE re prev (c :: rest) (fun _ _ => true) || searchFrom re (some c) rest

/-- Whether `re.search(pattern, text, re.IGNORECASE)` is not `None`. -/
def reSearchL (re : RE) (text : List Char) : Bool :=
  searchFrom re none text

/-- The last character of `prev` followed by a chunk of consumed input:
the character just before the position reached after reading the chunk. -/
def lastO (prev : Option Char) : List Char → Option Char
  | [] => prev
  | c :: cs => lastO (some c) cs

/-- Whether an optional adjacent character is absent or a non-word
character (the two-sided condition for a `\b` boundary next to a word). -/
def nonWordOpt : Option Char → Bool
  | none => true
  | some c => !isWordChar c

/-- A sequence of literal (lowercase) pattern characters. -/
def litL : List Char → RE
  | [] => .eps
  | c :: cs => .seq (.chr c) (litL cs)

/-- Pattern `\b<word>\b`. -/
def bword (s : String) : RE :=
  .seq .wb (.seq (litL s.data) .wb)

/-! The pattern table of `detect_tools`, each entry transliterated from
its `re` pattern string (shown in the comment). -/

/-- Pattern `\bjava\b|\bjdk\b|\bjre\b` -/
def re_java : RE := .alt (bword "java") (.alt (bword "jdk") (bword "jre"))

/-- Pattern `\bmaven\b|\bmvn\b` -/
def re_maven : RE := .alt (bword "maven") (bword "mvn")

/-- Pattern `\bgradle\b` -/
def re_gradle : RE := bword "gradle"

/-- Pattern `\bnode(?:js)?\b` -/
def re_node : RE := .seq .wb (.seq (litL "node".data) (.seq (.opt (litL "js".data)) .wb))

/-- Pattern `\bnpm\b` -/
def re_npm : RE := bword "npm"

/-- Pattern `\bpython(?:3)?\b|\bpip(?:3)?\b` -/
def re_python3 : RE :=
  .alt (.seq .wb (.seq (litL "python".data) (.seq (.opt (.chr '3')) .wb)))
    (.seq .wb (.seq (litL "pip".data) (.seq (.opt (.chr '3')) .wb)))

/-- Pattern `\bdocker\b` -/
def re_docker : RE := bword "docker"

/-- Pattern `\bdocker[ -]compose\b` -/
def re_docker_compose : RE :=
  .seq .wb (.seq (litL "docker".data) (.seq (.cls [' ', '-']) (.seq (litL "compose".data) .wb)))

/-- Pattern `\bgit\b` -/
def re_git : RE := bword "git"

/-- Pattern `\bmongo(?:db)?\b` -/
def re_mongodb : RE := .seq .wb (.seq (litL "mongo".data) (.seq (.opt (litL "db".data)) .wb))

/-- Pattern `\bpostgre(?:s|sql)?\b` -/
def re_postgresql : RE :=
  .seq .wb (.seq (litL "postgre".data) (.seq (.opt (.alt (.chr 's') (litL "sql".data))) .wb))

/-- Pattern `\bmysql\b` -/
def re_mysql : RE := bword "mysql"

/-- Pattern `\bredis\b` -/
def re_redis : RE := bword "redis"

/-- Pattern `\bvs ?code\b|\bvisual studio code\b` -/
def re_vscode : RE :=
  .alt (.seq .wb (.seq (litL "vs".data) (.seq (.opt (.chr ' ')) (.seq (litL "code".data) .wb))))
    (bword "visual studio code")

/-- Pattern `\bintellij\b|\bidea\b` -/
def re_intellij_idea : RE := .alt (bword "intellij") (bword "idea")

/-- The `tool_patterns` dict of `detect_tools`, in insertion order. -/
def tool_patterns : List (String × RE) :=
  [("java", re_java), ("maven", re_maven), ("gradle", re_gradle), ("node", re_node),
   ("npm", re_npm), ("python3", re_python3), ("docker", re_docker),
   ("docker-compose", re_docker_compose), ("git", re_git), ("mongodb", re_mongodb),
   ("postgresql", re_postgresql), ("mysql", re_mysql), ("redis", re_redis),
   ("vscode", re_vscode), ("intellij-idea", re_intellij_idea)]

/-- The body of `detect_tools` on the character list of the README text: append, in
table order, every tool whose pattern matches somewhere in the text. -/
def detect_toolsL (text : List Char) : List String :=
  (tool_patterns.filter (fun p => reSearchL p.2 text)).map Prod.fst

/-- The function `detect_tools(readme_content)`. -/
def detect_tools (readme_content : String) : List String :=
  detect_toolsL readme_content.data

/-! ## README section extractor (`parse_readme`)

The markdown rendering (`markdown.markdown` + `BeautifulSoup`) is
external; a rendered document is its flat list of top-level nodes.
`BeautifulSoup`'s bare strings between tags have `name == None` and are
skipped by every branch of the source loop; they are the `txt` nodes.
Ordered lists (`ol`) and any other tags fall through every branch too. -/

inductive Node where
  | heading (level : Nat) (text : String)
  | para (text : String)
  | pre (text : String)
  | code (text : String)
  | ul (items : List String)
  | ol (items : List String)
  | txt (text : String)
deriving DecidableEq

/-- The five bucket categories of `setup_info`, in the priority order of
the `if`/`elif` chain in `parse_readme`. -/
inductive Cat where
  | prereq
  | setup
  | database
  | run
  | ide
deriving DecidableEq

/-- The dictionary built by `parse_readme` (the `detected_tools` key is
added at the end of the function). -/
structure SetupInfo where
  prerequisites : List String
  environment_setup : List String
  database_setup : List String
  running_instructions : List String
  ide_setup : List String
  detected_tools : List String
deriving DecidableEq

/-- The `setup_info` dict as initialised (before tool detection). -/
def emptyInfo : SetupInfo := ⟨[], [], [], [], [], []⟩

/-- Classification of a heading by the `if`/`elif` chain of
`parse_readme`: lowercase the heading text, then test each category's
keyword list with Python's substring `in`; first hit wins, no hit means
the heading is ignored. -/
def classify (headingText : String) : Option Cat :=
  let h := lowerStr headingText
  if ["prerequisite", "requirement", "depend", "tool", "software"].any (fun term => strContains h term) then
    some .prereq
  else if ["setup", "install", "configur", "environ"].any (fun term => strContains h term) then
    some .setup
  else if ["database", "db", "data"].any (fun term => strContains h term) then
    some .database
  else if ["run", "start", "execute"].any (fun term => strContains h term) then
    some .run
  else if ["ide", "intellij", "eclipse", "vscode", "editor"].any (fun term => strContains h term) then
    some .ide
  else
    none

/-- The tags `['h1', 'h2', 'h3', 'h4']` that `find_all` selects and the
sibling loops break on. -/
def h1to4 (lvl : Nat) : Bool := [1, 2, 3, 4].contains lvl

/-- The sibling loop after a classified heading: walk following nodes,
break at the first `h1`..`h4` heading; `p` contributes its stripped text,
`ul` one stripped entry per `li`.  In the prerequisites branch
(`withCode = false`) only `ul` and `p` are captured; the four other
branches (`withCode = true`) also capture `pre` and `code` nodes. -/
def collectContent (withCode : Bool) : List Node → List String
  | [] => []
  | .heading lvl _ :: rest =>
    if h1to4 lvl then [] else collectContent withCode rest
  | .para s :: rest => pyStrip s :: collectContent withCode rest
  | .pre s :: rest =>
    if withCode then pyStrip s :: collectContent withCode rest else collectContent withCode rest
  | .code s :: rest =>
    if withCode then pyStrip s :: collectContent withCode rest else collectContent withCode rest
  | .ul items :: rest => items.map pyStrip ++ collectContent withCode rest
  | .ol _ :: rest => collectContent withCode rest
  | .txt _ :: rest => collectContent withCode rest

/-- Whether a category's sibling loop also captures `pre`/`code` nodes
(all branches except prerequisites). -/
def catWithCode : Cat → Bool
  | .prereq => false
  | _ => true

/-- Appends (`.extend`) collected content to the bucket of a category,
in front of contributions of later headings. -/
def addCat (c : Cat) (content : List String) (s : SetupInfo) : SetupInfo :=
  match c with
  | .prereq => { s with prerequisites := content ++ s.prerequisites }
  | .setup => { s with environment_setup := content ++ s.environment_setup }
  | .database => { s with database_setup := content ++ s.database_setup }
  | .run => { s with running_instructions := content ++ s.running_instructions }
  | .ide => { s with ide_setup := content ++ s.ide_setup }

/-- Reads a bucket of `setup_info` by category. -/
def bucketGet : Cat → SetupInfo → List String
  | .prereq, s => s.prerequisites
  | .setup, s => s.environment_setup
  | .database, s => s.database_setup
  | .run, s => s.running_instructions
  | .ide, s => s.ide_setup

/-- The heading loop of `parse_readme`: `find_all(['h1','h2','h3','h4'])`
yields exactly the `h1`..`h4` headings in document order; each classified
one contributes `collectContent` of its following siblings to its bucket.
Processing the node list front to back and prepending the current
heading's contribution to the recursive result reproduces the source's
append-in-document-order accumulation. -/
def parseNodes : List Node → SetupInfo
  | [] => emptyInfo
  | .heading lvl t :: rest =>
    if h1to4 lvl then
      match classify t with
      | some c => addCat c (collectContent (catWithCode c) rest) (parseNodes rest)
      | none => parseNodes rest
    else
      parseNodes rest
  | _ :: rest => parseNodes rest

/-- The function `parse_readme(readme_content)`: bucket extraction over the
rendered document plus `detect_tools` over the raw text. -/
def parse_readme (doc : List Node) (readme_content : String) : SetupInfo :=
  { parseNodes doc with detected_tools := detect_tools readme_content }

/-- Whether a node is an `h1`..`h4` heading classified into the setup
category. -/
def isSetupHeading : Node → Bool
  | .heading lvl t => h1to4 lvl && classify t == some Cat.setup
  | _ => false

/-- Rendered tree of the three-section test document of claim C6:
headings `## Prerequisites`, `## Setup`, `## Run`, each followed by a
bullet list of two items. -/
def docC6 : List Node :=
  [.heading 2 "Prerequisites", .ul [" Docker 20+", "Git 2.30+"],
   .heading 2 "Setup", .ul ["Install dependencies", "Copy the env file "],
   .heading 2 "Run", .ul ["npm start", "Open the browser"]]

/-- Raw markdown text of the claim C6 test document. -/
def rawC6 : String :=
  "## Prerequisites\n-  Docker 20+\n- Git 2.30+\n\n## Setup\n- Install dependencies\n- Copy the env file \n\n## Run\n- npm start\n- Open the browser\n"

/-! ## Tool registry (`self.tools_cache["general"]`)

The static 15-entry table, keyed by tool name.  Installation scripts that
are multi-line Python triple-quoted strings are normalised to
newline-separated command lines (their per-line indentation is irrelevant
to every claim: command strings are opaque tokens passed to the shell).
A missing `"dependencies"` key means the dependency loop body never runs,
i.e. the empty list. -/

structure ToolSpec where
  installation : String
  verification : String
  dependencies : List String
deriving DecidableEq

def tools_cache : String → Option ToolSpec
  | "git" => some ⟨"sudo apt-get update && sudo apt-get install -y git", "git --version", []⟩
  | "docker" => some ⟨"sudo apt-get update\nsudo apt-get install -y apt-transport-https ca-certificates curl software-properties-common\ncurl -fsSL https://download.docker.com/linux/ubuntu/gpg | sudo apt-key add -\nsudo add-apt-repository \"deb [arch=amd64] https://download.docker.com/linux/ubuntu $(lsb_release -cs) stable\"\nsudo apt-get update\nsudo apt-get install -y docker-ce docker-ce-cli containerd.io\nsudo usermod -aG docker $USER", "docker --version", []⟩
  | "docker-compose" => some ⟨"sudo curl -L \"https://github.com/docker/compose/releases/download/v2.18.1/docker-compose-$(uname -s)-$(uname -m)\" -o /usr/local/bin/docker-compose\nsudo chmod +x /usr/local/bin/docker-compose", "docker-compose --version", []⟩
  | "nvm" => some ⟨"curl -o- https://raw.githubusercontent.com/nvm-sh/nvm/v0.39.3/install.sh | bash\nexport NVM_DIR=\"$HOME/.nvm\"\n[ -s \"$NVM_DIR/nvm.sh\" ] && \\. \"$NVM_DIR/nvm.sh\"", "nvm --version", []⟩
  | "node" => some ⟨"nvm install --lts", "node --version", ["nvm"]⟩
  | "npm" => some ⟨"", "npm --version", ["node"]⟩
  | "java" => some ⟨"sudo apt-get update && sudo apt-get install -y openjdk-17-jdk", "java -version", []⟩
  | "maven" => some ⟨"sudo apt-get update && sudo apt-get install -y maven", "mvn -version", []⟩
  | "gradle" => some ⟨"wget -q https://services.gradle.org/distributions/gradle-8.3-bin.zip -P /tmp\nsudo unzip -d /opt/gradle /tmp/gradle-*.zip\necho \x27export PATH=$PATH:/opt/gradle/gradle-8.3/bin\x27 >> ~/.bashrc\nexport PATH=$PATH:/opt/gradle/gradle-8.3/bin", "gradle -version", []⟩
  | "python3" => some ⟨"sudo apt-get update && sudo apt-get install -y python3 python3-pip", "python3 --version && pip3 --version", []⟩
  | "mongodb" => some ⟨"wget -qO - https://www.mongodb.org/static/pgp/server-6.0.asc | sudo apt-key add -\necho \"deb [ arch=amd64,arm64 ] https://repo.mongodb.org/apt/ubuntu $(lsb_release -cs)/mongodb-org/6.0 multiverse\" | sudo tee /etc/apt/sources.list.d/mongodb-org-6.0.list\nsudo apt-get update\nsudo apt-get install -y mongodb-org\nsudo systemctl start mongod\nsudo systemctl enable mongod", "mongod --version", []⟩
  | "postgresql" => some ⟨"sudo apt-get update\nsudo apt-get install -y postgresql postgresql-contrib\nsudo systemctl start postgresql\nsudo systemctl enable postgresql", "psql --version", []⟩
  | "mysql" => some ⟨"sudo apt-get update\nsudo apt-get install -y mysql-server\nsudo systemctl start mysql\nsudo systemctl enable mysql\nsudo mysql_secure_installation", "mysql --version", []⟩
  | "redis" => some ⟨"sudo apt-get update\nsudo apt-get install -y redis-server\nsudo systemctl start redis\nsudo systemctl enable redis", "redis-cli --version", []⟩
  | "vscode" => some ⟨"wget -qO- https://packages.microsoft.com/keys/microsoft.asc | gpg --dearmor > packages.microsoft.gpg\nsudo install -D -o root -g root -m 644 packages.microsoft.gpg /etc/apt/keyrings/packages.microsoft.gpg\nsudo sh -c \x27echo \"deb [arch=amd64,arm64,armhf signed-by=/etc/apt/keyrings/packages.microsoft.gpg] https://packages.microsoft.com/repos/code stable main\" > /etc/apt/sources.list.d/vscode.list\x27\nrm -f packages.microsoft.gpg\nsudo apt update\nsudo apt install -y code", "code --version", []⟩
  | "intellij-idea" => some ⟨"sudo snap install intellij-idea-community --classic", "snap info intellij-idea-community", []⟩
  | _ => none

/-! ## Installer

A `shell` oracle gives each command string's exit-status-zero outcome.
`install_tool` returns, alongside its success flag, the list of tool
names whose installation command it passed to `subprocess.run`, in
execution order.  The Python recursion terminates or diverges depending
on the (acyclic, depth-2) registry; the embedding adds explicit fuel,
with fuel exhaustion returning failure without running anything. -/

/-- The method `check_tool_installed(tool_name)`: unknown tool prints and
returns `False`; otherwise run the verification command and test
`returncode == 0`. -/
def check_tool_installed (shell : String → Bool) (name : String) : Bool :=
  match tools_cache name with
  | none => false
  | some spec => shell spec.verification

mutual

/-- The method `install_tool(tool_name)`: unknown tool fails; otherwise
first run the dependency loop, aborting on its failure; then run the
installation command, fail on non-zero exit, and otherwise return the
post-install `check_tool_installed` verdict. -/
def install_tool (shell : String → Bool) : Nat → String → Bool × List String
  | 0, _ => (false, [])
  | fuel + 1, name =>
    match tools_cache name with
    | none => (false, [])
    | some spec =>
      match install_deps shell fuel spec.dependencies with
      | (false, tr) => (false, tr)
      | (true, tr) =>
        if shell spec.installation then
          (check_tool_installed shell name, tr ++ [name])
        else
          (false, tr ++ [name])
termination_by fuel _ => (fuel, 0)

/-- The dependency loop inside `install_tool`: for each dependency in
order, skip it if already installed, otherwise install it recursively and
return `False` as soon as one such installation fails. -/
def install_deps (shell : String → Bool) : Nat → List String → Bool × List String
  | _, [] => (true, [])
  | fuel, d :: ds =>
    if check_tool_installed shell d then install_deps shell fuel ds
    else
      match install_tool shell fuel d with
      | (false, tr) => (false, tr)
      | (true, tr) =>
        match install_deps shell fuel ds with
        | (b, tr2) => (b, tr ++ tr2)
termination_by fuel ds => (fuel, ds.length + 1)

end

/-- The spec's `ensure_installed(tool_name)` as realised at the call
sites (`setup_environment_for_project` and the "Install a specific tool"
menu action): check first, and only when the verification fails call
`install_tool`. -/
def ensure_installed (shell : String → Bool) (fuel : Nat) (name : String) : Bool × List String :=
  if check_tool_installed shell name then (true, [])
  else install_tool shell fuel name

/-! ## Project discovery (`discover_projects`) -/

/-- Outcome of probing `<dir>/README.md` on the remote: content fetched
and decoded, a NotFound answer, or a transient remote failure.  In the
source the latter two both raise and are caught by the per-directory
`except Exception: continue`. -/
inductive ProbeResult where
  | found (content : String)
  | notFound
  | failure
deriving DecidableEq

/-- One top-level entry of `repo.get_contents("")`. -/
structure Entry where
  name : String
  path : String
  typ : String
  readme : ProbeResult
deriving DecidableEq

/-- The dict appended to `self.projects` for a discovered project. -/
structure Project where
  name : String
  path : String
  readme_content : String
deriving DecidableEq

/-- The method `discover_projects`: keep each directory entry whose
README probe succeeds; any probe exception (NotFound or transient
failure) just skips that entry. -/
def discover_projects : List Entry → List Project
  | [] => []
  | e :: rest =>
    if e.typ == "dir" then
      match e.readme with
      | .found c => ⟨e.name, e.path, c⟩ :: discover_projects rest
      | _ => discover_projects rest
    else
      discover_projects rest

/-- Whether an entry is a directory whose README probe succeeded. -/
def entryKept (e : Entry) : Bool :=
  e.typ == "dir" && (match e.readme with | .found _ => true | _ => false)

/-- The README text of a kept entry (junk value on others; only applied
to kept entries). -/
def readmeText : ProbeResult → String
  | .found c => c
  | _ => ""

/-! ## Shared lemmas about the extractor -/

/-- Reading a bucket right after appending to the same category yields the
appended content followed by the previous bucket content. -/
theorem bucketGet_addCat_same (c : Cat) (content : List String) (s : SetupInfo) :
    bucketGet c (addCat c content s) = content ++ bucketGet c s := by
  cases c <;> rfl

/-- Appending to a different category leaves a bucket unchanged. -/
theorem bucketGet_addCat_other (c c' : Cat) (hne : c ≠ c') (content : List String)
    (s : SetupInfo) : bucketGet c (addCat c' content s) = bucketGet c s := by
  cases c <;> cases c' <;> first | rfl | exact absurd rfl hne

/-- A node that is not an `h1`..`h4` setup-classified heading leaves the
`environment_setup` bucket of the parse unchanged. -/
theorem parseNodes_env_skip (x : Node) (l : List Node) (hx : isSetupHeading x = false) :
    (parseNodes (x :: l)).environment_setup = (parseNodes l).environment_setup := by
  cases x with
  | heading lvl t =>
    simp only [parseNodes]
    by_cases hl : h1to4 lvl
    · rw [if_pos hl]
      cases hc : classify t with
      | none => rfl
      | some c =>
        have hcne : Cat.setup ≠ c := by
          intro h
          rw [← h] at hc
          simp [isSetupHeading, hl, hc] at hx
        exact bucketGet_addCat_other .setup c hcne (collectContent (catWithCode c) l) (parseNodes l)
    · rw [if_neg hl]
  | para s => rfl
  | pre s => rfl
  | code s => rfl
  | ul items => rfl
  | ol items => rfl
  | txt s => rfl

/-- A prefix free of setup-classified headings does not affect the
`environment_setup` bucket. -/
theorem parseNodes_env_append (pre l : List Node)
    (hpre : ∀ x ∈ pre, isSetupHeading x = false) :
    (parseNodes (pre ++ l)).environment_setup = (parseNodes l).environment_setup := by
  induction pre with
  | nil => rfl
  | cons a pre ih =>
    rw [List.cons_append, parseNodes_env_skip a _ (hpre a (List.mem_cons_self a pre))]
    exact ih (fun x hx => hpre x (List.mem_cons_of_mem a hx))

/-- A document without setup-classified headings has an empty
`environment_setup` bucket. -/
theorem parseNodes_env_nil (l : List Node)
    (hl : ∀ x ∈ l, isSetupHeading x = false) :
    (parseNodes l).environment_setup = [] := by
  have := parseNodes_env_append l [] hl
  simpa using this

/-! ## Claim C1 -/

/-- Claim C1: for every tool name whose verification command exits with
status zero, the check-then-install operation (`ensure_installed`)
returns success and never invokes that tool's installation command (its
trace of executed installation commands is empty). -/
theorem C1_already_installed_short_circuit (shell : String → Bool) (fuel : Nat)
    (name : String) (spec : ToolSpec)
    (hlook : tools_cache name = some spec)
    (hver : shell spec.verification = true) :
    ensure_installed shell fuel name = (true, []) := by
  unfold ensure_installed check_tool_installed
  rw [hlook]
  simp [hver]

/-- Witness for claim C1 at the registry's `git` entry with a shell on
which every verification succeeds. -/
theorem C1_witness : ensure_installed (fun _ => true) 1 "git" = (true, []) :=
  C1_already_installed_short_circuit (fun _ => true) 1 "git"
    ⟨"sudo apt-get update && sudo apt-get install -y git", "git --version", []⟩ rfl rfl

/-! ## Claim C6 -/

/-- Claim C6: on the document with headings `## Prerequisites`,
`## Setup`, `## Run`, each followed by a bullet list of two items,
extraction fills `prerequisites`, `environment_setup` and
`running_instructions` with exactly the corresponding two trimmed item
texts, and leaves `database_setup` and `ide_setup` empty. -/
theorem C6_three_section_extraction :
    (parse_readme docC6 rawC6).prerequisites = ["Docker 20+", "Git 2.30+"]
    ∧ (parse_readme docC6 rawC6).environment_setup = ["Install dependencies", "Copy the env file"]
    ∧ (parse_readme docC6 rawC6).running_instructions = ["npm start", "Open the browser"]
    ∧ (parse_readme docC6 rawC6).database_setup = []
    ∧ (parse_readme docC6 rawC6).ide_setup = [] := by
  refine ⟨?_, ?_, ?_, ?_, ?_⟩ <;> decide

/-! ## Claim C3 -/

/-- Claim C3 counterexample: under a prerequisites-classified heading a
`pre` sibling contributes nothing — the claim predicts it contributes its
trimmed text as one entry. -/
theorem C3_counterexample :
    ¬ (parseNodes [.heading 2 "Prerequisites", .pre "npm install"]).prerequisites
        = [pyStrip "npm install"] := by
  decide

/-- Claim C3 as amended: for a classified heading, a paragraph sibling
contributes its trimmed text, an unordered-list sibling one trimmed entry
per item; `pre`/`code` siblings contribute their trimmed text for the
setup, database, run and IDE categories but are ignored for the
prerequisites category. -/
theorem C3_amended_sibling_contribution (t : String) (c : Cat) (s : String)
    (items : List String) (hc : classify t = some c) :
    bucketGet c (parseNodes [.heading 2 t, .para s]) = [pyStrip s]
    ∧ bucketGet c (parseNodes [.heading 2 t, .ul items]) = items.map pyStrip
    ∧ bucketGet c (parseNodes [.heading 2 t, .pre s])
        = (if c = .prereq then [] else [pyStrip s])
    ∧ bucketGet c (parseNodes [.heading 2 t, .code s])
        = (if c = .prereq then [] else [pyStrip s]) := by
  cases c <;>
    simp [parseNodes, hc, collectContent, addCat, bucketGet, catWithCode, h1to4, emptyInfo]

/-- Witness for the amended claim C3 at a setup heading. -/
theorem C3_witness :
    bucketGet .setup (parseNodes [.heading 2 "Setup", .para " x "]) = [pyStrip " x "]
    ∧ bucketGet .setup (parseNodes [.heading 2 "Setup", .ul [" a", "b "]])
        = [" a", "b "].map pyStrip
    ∧ bucketGet .setup (parseNodes [.heading 2 "Setup", .pre " x "])
        = (if Cat.setup = .prereq then [] else [pyStrip " x "])
    ∧ bucketGet .setup (parseNodes [.heading 2 "Setup", .code " x "])
        = (if Cat.setup = .prereq then [] else [pyStrip " x "]) :=
  C3_amended_sibling_contribution "Setup" .setup " x " [" a", "b "] (by decide)

/-! ## Claim C2 -/

/-- Claim C2 counterexample: an `h5` heading reading `Setup` is not
classified (its following paragraph lands in no bucket), and capture
under a classified `h2` does not stop at an `h5` heading — against the
claim's prediction that every level `h1`..`h6` is classified and
terminates capture. -/
theorem C2_counterexample :
    ¬ ((parseNodes [.heading 5 "Setup", .para "npm install"]).environment_setup
          = [pyStrip "npm install"]
       ∧ (parseNodes [.heading 2 "Setup", .para "a", .heading 5 "Notes", .para "b"]).environment_setup
          = [pyStrip "a"]) := by
  decide

/-- Claim C2 as amended: only `h1`..`h4` headings are classified and
terminate content capture; an `h5`/`h6` heading is skipped entirely by
the parse (its text never classified, even `Setup`) and capture continues
straight past it, while capture stops at every `h1`..`h4` heading. -/
theorem C2_amended_h1_to_h4 (t u v : String) (s₁ s₂ : String) (lvl lvl' : Nat)
    (rest : List Node) (w : Bool)
    (ht : classify t = some .setup) (h56 : lvl ∈ [5, 6]) (h14 : lvl' ∈ [1, 2, 3, 4]) :
    (parseNodes [.heading 2 t, .para s₁, .heading lvl u, .para s₂]).environment_setup
      = [pyStrip s₁, pyStrip s₂]
    ∧ parseNodes (.heading lvl u :: rest) = parseNodes rest
    ∧ collectContent w (.heading lvl' v :: rest) = [] := by
  have hlvl : h1to4 lvl = false := by
    simp only [List.mem_cons, List.not_mem_nil, or_false] at h56
    rcases h56 with rfl | rfl <;> decide
  have hlvl' : h1to4 lvl' = true := by
    simp only [List.mem_cons, List.not_mem_nil, or_false] at h14
    rcases h14 with rfl | rfl | rfl | rfl <;> decide
  refine ⟨?_, ?_, ?_⟩
  · simp [parseNodes, ht, collectContent, addCat, hlvl, emptyInfo]
    rfl
  · simp [parseNodes, hlvl]
  · simp [collectContent, hlvl']

/-- Witness for the amended claim C2 at `h5` inside and after a setup
section. -/
theorem C2_witness :
    (parseNodes [.heading 2 "Setup", .para "a", .heading 5 "Notes", .para "b"]).environment_setup
      = [pyStrip "a", pyStrip "b"]
    ∧ parseNodes (.heading 5 "Notes" :: [Node.para "b"]) = parseNodes [Node.para "b"]
    ∧ collectContent true (.heading 3 "Next" :: [Node.para "b"]) = [] :=
  C2_amended_h1_to_h4 "Setup" "Notes" "Next" "a" "b" 5 3 [Node.para "b"] true
    (by decide) (by decide) (by decide)

/-! ## Claim C5 -/

/-- Discovery is the order-preserving filter of directory entries with a
successfully probed README, mapped to `Project` records. -/
theorem discover_projects_eq (l : List Entry) :
    discover_projects l
      = (l.filter entryKept).map (fun e => ⟨e.name, e.path, readmeText e.readme⟩) := by
  induction l with
  | nil => rfl
  | cons e rest ih =>
    by_cases ht : (e.typ == "dir") = true <;> cases hr : e.readme <;>
      simp [discover_projects, entryKept, readmeText, ht, hr, ih]

/-- Claim C5: discovery returns exactly the top-level directories whose
README probe succeeds, as Projects in listing order, and a failing probe
of one directory only drops that directory, leaving the rest of the
discovery unchanged. -/
theorem C5_discovery_filters_and_survives_failures (pre post : List Entry) (e : Entry)
    (hfail : e.readme = .failure) :
    discover_projects (pre ++ e :: post) = discover_projects (pre ++ post)
    ∧ ∀ l : List Entry, discover_projects l
        = (l.filter entryKept).map (fun e => ⟨e.name, e.path, readmeText e.readme⟩) := by
  refine ⟨?_, discover_projects_eq⟩
  rw [discover_projects_eq, discover_projects_eq]
  have hk : entryKept e = false := by simp [entryKept, hfail]
  simp [List.filter_append, List.filter_cons, hk]

/-- Witness for claim C5: five top-level directories, three with a
README, one probe failing, one NotFound — exactly the three Projects in
listing order. -/
theorem C5_witness :
    discover_projects ([⟨"svc-a", "svc-a", "dir", .found "readme a"⟩]
        ++ ⟨"svc-b", "svc-b", "dir", .failure⟩
          :: [⟨"svc-c", "svc-c", "dir", .found "readme c"⟩,
              ⟨"svc-d", "svc-d", "dir", .notFound⟩,
              ⟨"svc-e", "svc-e", "dir", .found "readme e"⟩])
      = [⟨"svc-a", "svc-a", "readme a"⟩, ⟨"svc-c", "svc-c", "readme c"⟩,
         ⟨"svc-e", "svc-e", "readme e"⟩] :=
  ((C5_discovery_filters_and_survives_failures _ _ _ rfl).1).trans (by decide)

/-! ## Claim C8 -/

/-- Claim C8: with two setup-classified sibling headings (and no other
setup-classified heading), the `environment_setup` bucket is the
concatenation, in document order, of the content collected after the
first heading and the content collected after the second — nothing is
overwritten or deduplicated. -/
theorem C8_setup_sections_concatenate (pre mid post : List Node) (lvl₁ lvl₂ : Nat)
    (t₁ t₂ : String)
    (h₁ : h1to4 lvl₁ = true) (h₂ : h1to4 lvl₂ = true)
    (hc₁ : classify t₁ = some .setup) (hc₂ : classify t₂ = some .setup)
    (hpre : ∀ x ∈ pre, isSetupHeading x = false)
    (hmid : ∀ x ∈ mid, isSetupHeading x = false)
    (hpost : ∀ x ∈ post, isSetupHeading x = false) :
    (parseNodes (pre ++ .heading lvl₁ t₁ :: (mid ++ .heading lvl₂ t₂ :: post))).environment_setup
      = collectContent true (mid ++ .heading lvl₂ t₂ :: post) ++ collectContent true post := by
  rw [parseNodes_env_append pre _ hpre]
  have e1 : (parseNodes (Node.heading lvl₁ t₁ :: (mid ++ Node.heading lvl₂ t₂ :: post))).environment_setup
      = collectContent true (mid ++ Node.heading lvl₂ t₂ :: post)
        ++ (parseNodes (mid ++ Node.heading lvl₂ t₂ :: post)).environment_setup := by
    simp only [parseNodes, h₁, if_true, hc₁]
    rfl
  rw [e1, parseNodes_env_append mid _ hmid]
  have e2 : (parseNodes (Node.heading lvl₂ t₂ :: post)).environment_setup
      = collectContent true post ++ (parseNodes post).environment_setup := by
    simp only [parseNodes, h₂, if_true, hc₂]
    rfl
  rw [e2, parseNodes_env_nil post hpost, List.append_nil]

/-- Witness for claim C8: `## Setup` with a two-item list followed by
`## Additional Setup` with a paragraph. -/
theorem C8_witness :
    (parseNodes ([] ++ Node.heading 2 "Setup"
        :: ([Node.ul ["a", "b"]] ++ Node.heading 2 "Additional Setup" :: [Node.para " c "]))).environment_setup
      = ["a", "b", "c"] :=
  (C8_setup_sections_concatenate [] [Node.ul ["a", "b"]] [Node.para " c "] 2 2
      "Setup" "Additional Setup" rfl rfl (by decide) (by decide)
      (by decide) (by decide) (by decide)).trans (by decide)

/-! ## Claim C9 -/

/-- Claim C9: every tool identifier returned by detection is a key of the
tool registry. -/
theorem C9_detected_tools_subset_registry (text : String) (t : String)
    (ht : t ∈ detect_tools text) : (tools_cache t).isSome = true := by
  have hmem : t ∈ tool_patterns.map Prod.fst := by
    unfold detect_tools detect_toolsL at ht
    rcases List.mem_map.mp ht with ⟨p, hp, rfl⟩
    exact List.mem_map_of_mem _ (List.mem_of_mem_filter hp)
  simp only [tool_patterns, List.map_cons, List.map_nil, List.mem_cons,
    List.not_mem_nil, or_false] at hmem
  rcases hmem with rfl|rfl|rfl|rfl|rfl|rfl|rfl|rfl|rfl|rfl|rfl|rfl|rfl|rfl|rfl <;> rfl

/-- Witness for claim C9 at a detected `docker`. -/
theorem C9_witness :
    ("docker" ∈ detect_tools "Use docker here") ∧ (tools_cache "docker").isSome = true :=
  ⟨by decide, C9_detected_tools_subset_registry "Use docker here" "docker" (by decide)⟩

/-! ## Claim C10 -/

/-- Claim C10: heading classification is plain substring search on the
lowercased text, not whole-word matching — a heading containing `ide`
(such as `User Guide`) with no earlier-category keyword feeds `ide_setup`
with its following content, and a heading containing `start` (such as
`Getting Started`) with no earlier-category keyword classifies as running
instructions. -/
theorem C10_substring_keyword_classification (t u : String) (s : String)
    (hide : strContains (lowerStr t) "ide" = true)
    (ht : ∀ k ∈ ["prerequisite", "requirement", "depend", "tool", "software",
        "setup", "install", "configur", "environ", "database", "db", "data",
        "run", "start", "execute"], strContains (lowerStr t) k = false)
    (hstart : strContains (lowerStr u) "start" = true)
    (hu : ∀ k ∈ ["prerequisite", "requirement", "depend", "tool", "software",
        "setup", "install", "configur", "environ", "database", "db", "data"],
        strContains (lowerStr u) k = false) :
    classify t = some .ide
    ∧ (parseNodes [.heading 2 t, .para s]).ide_setup = [pyStrip s]
    ∧ classify u = some .run := by
  have hct : classify t = some .ide := by
    have k01 := ht "prerequisite" (by decide)
    have k02 := ht "requirement" (by decide)
    have k03 := ht "depend" (by decide)
    have k04 := ht "tool" (by decide)
    have k05 := ht "software" (by decide)
    have k06 := ht "setup" (by decide)
    have k07 := ht "install" (by decide)
    have k08 := ht "configur" (by decide)
    have k09 := ht "environ" (by decide)
    have k10 := ht "database" (by decide)
    have k11 := ht "db" (by decide)
    have k12 := ht "data" (by decide)
    have k13 := ht "run" (by decide)
    have k14 := ht "start" (by decide)
    have k15 := ht "execute" (by decide)
    simp [classify, k01, k02, k03, k04, k05, k06, k07, k08, k09, k10, k11, k12,
      k13, k14, k15, hide]
  have hcu : classify u = some .run := by
    have k01 := hu "prerequisite" (by decide)
    have k02 := hu "requirement" (by decide)
    have k03 := hu "depend" (by decide)
    have k04 := hu "tool" (by decide)
    have k05 := hu "software" (by decide)
    have k06 := hu "setup" (by decide)
    have k07 := hu "install" (by decide)
    have k08 := hu "configur" (by decide)
    have k09 := hu "environ" (by decide)
    have k10 := hu "database" (by decide)
    have k11 := hu "db" (by decide)
    have k12 := hu "data" (by decide)
    simp [classify, k01, k02, k03, k04, k05, k06, k07, k08, k09, k10, k11, k12,
      hstart]
  refine ⟨hct, ?_, hcu⟩
  simp [parseNodes, hct, collectContent, addCat, emptyInfo]
  try rfl

/-- Witness for claim C10 at the headings `User Guide` and
`Getting Started`. -/
theorem C10_witness :
    classify "User Guide" = some .ide
    ∧ (parseNodes [.heading 2 "User Guide", .para "hi"]).ide_setup = [pyStrip "hi"]
    ∧ classify "Getting Started" = some .run :=
  C10_substring_keyword_classification "User Guide" "Getting Started" "hi"
    (by decide) (by decide) (by decide) (by decide)

/-! ## Claim C4 -/

/-- If some dependency in the list fails its installed-check and its
recursive installation, the dependency loop reports failure. -/
theorem install_deps_fail (shell : String → Bool) (fuel : Nat) (ds : List String)
    (d : String) (hd : d ∈ ds)
    (hni : check_tool_installed shell d = false)
    (hfail : (install_tool shell fuel d).1 = false) :
    (install_deps shell fuel ds).1 = false := by
  induction ds with
  | nil => simp at hd
  | cons a ds ih =>
    rcases List.mem_cons.mp hd with rfl | hmem
    · simp only [install_deps, hni, Bool.false_eq_true, if_false]
      rw [show install_tool shell fuel d = (false, (install_tool shell fuel d).2) from by
        rw [← hfail]]
    · by_cases hca : check_tool_installed shell a = true
      · simp only [install_deps, hca, if_true]
        exact ih hmem
      · simp only [install_deps, hca, if_false]
        rcases ha : install_tool shell fuel a with ⟨b, tr⟩
        cases b
        · rfl
        · rcases hds : install_deps shell fuel ds with ⟨b2, tr2⟩
          have := ih hmem
          rw [hds] at this
          simpa using this

/-- Every registry entry with a nonempty dependency list is `node` or
`npm`, with its literal spec. -/
theorem tools_cache_deps_inversion (name : String) (spec : ToolSpec)
    (h : tools_cache name = some spec) (hne : spec.dependencies ≠ []) :
    (name = "node" ∧ spec = ⟨"nvm install --lts", "node --version", ["nvm"]⟩)
    ∨ (name = "npm" ∧ spec = ⟨"", "npm --version", ["node"]⟩) := by
  unfold tools_cache at h
  split at h <;> (try rw [← Option.some_inj.mp h] at hne) <;> simp_all

/-- Unfolding equation: zero fuel fails without running anything. -/
theorem install_tool_zero (shell : String → Bool) (name : String) :
    install_tool shell 0 name = (false, []) := by
  simp [install_tool]

/-- Unfolding equation of `install_tool` at positive fuel for a known
tool whose dependency loop fails: the loop's result is returned and the
tool's own installation command is not run. -/
theorem install_tool_succ_depsFail (shell : String → Bool) (fuel : Nat) (name : String)
    (spec : ToolSpec) (tr : List String) (h : tools_cache name = some spec)
    (hd : install_deps shell fuel spec.dependencies = (false, tr)) :
    install_tool shell (fuel + 1) name = (false, tr) := by
  simp only [install_tool, h, hd]

/-- Unfolding equation of `install_tool` at positive fuel for a known
tool whose dependency loop succeeds: run the installation command and
re-verify. -/
theorem install_tool_succ_depsOk (shell : String → Bool) (fuel : Nat) (name : String)
    (spec : ToolSpec) (tr : List String) (h : tools_cache name = some spec)
    (hd : install_deps shell fuel spec.dependencies = (true, tr)) :
    install_tool shell (fuel + 1) name
      = if shell spec.installation then (check_tool_installed shell name, tr ++ [name])
        else (false, tr ++ [name]) := by
  simp only [install_tool, h, hd]

/-- Unfolding equation: an empty dependency list succeeds silently. -/
theorem install_deps_nil (shell : String → Bool) (fuel : Nat) :
    install_deps shell fuel [] = (true, []) := by
  simp [install_deps]

/-- Unfolding equation of the dependency loop: an installed dependency is
skipped. -/
theorem install_deps_cons_installed (shell : String → Bool) (fuel : Nat) (d : String)
    (ds : List String) (hc : check_tool_installed shell d = true) :
    install_deps shell fuel (d :: ds) = install_deps shell fuel ds := by
  simp only [install_deps, hc, if_true]

/-- Unfolding equation of the dependency loop: a missing dependency whose
installation fails aborts the loop. -/
theorem install_deps_cons_fail (shell : String → Bool) (fuel : Nat) (d : String)
    (ds : List String) (tr : List String) (hc : check_tool_installed shell d = false)
    (hi : install_tool shell fuel d = (false, tr)) :
    install_deps shell fuel (d :: ds) = (false, tr) := by
  simp only [install_deps, hc, Bool.false_eq_true, if_false, hi]

/-- Unfolding equation of the dependency loop: a missing dependency whose
installation succeeds lets the loop continue, accumulating its trace. -/
theorem install_deps_cons_ok (shell : String → Bool) (fuel : Nat) (d : String)
    (ds : List String) (tr tr2 : List String) (b : Bool)
    (hc : check_tool_installed shell d = false)
    (hi : install_tool shell fuel d = (true, tr))
    (hds : install_deps shell fuel ds = (b, tr2)) :
    install_deps shell fuel (d :: ds) = (b, tr ++ tr2) := by
  simp only [install_deps, hc, Bool.false_eq_true, if_false, hi, hds]

/-- The installer of `nvm` runs at most the `nvm` installation command. -/
theorem install_tool_nvm_trace (shell : String → Bool) (fuel : Nat) :
    (install_tool shell fuel "nvm").2 = []
    ∨ (install_tool shell fuel "nvm").2 = ["nvm"] := by
  cases fuel with
  | zero => left; simp [install_tool]
  | succ fuel =>
    right
    simp only [install_tool, tools_cache, install_deps]
    split <;> rfl

/-- The installer of `node` runs at most the `nvm` and `node`
installation commands. -/
theorem install_tool_node_trace (shell : String → Bool) (fuel : Nat) :
    (install_tool shell fuel "node").2 = []
    ∨ (install_tool shell fuel "node").2 = ["nvm"]
    ∨ (install_tool shell fuel "node").2 = ["node"]
    ∨ (install_tool shell fuel "node").2 = ["nvm", "node"] := by
  cases fuel with
  | zero => left; simp [install_tool]
  | succ fuel =>
    by_cases hc : check_tool_installed shell "nvm" = true
    · have hdeps : install_deps shell fuel ["nvm"] = (true, []) := by
        rw [install_deps_cons_installed shell fuel _ _ hc, install_deps_nil]
      rw [install_tool_succ_depsOk shell fuel "node"
        ⟨"nvm install --lts", "node --version", ["nvm"]⟩ [] rfl hdeps]
      right; right; left
      split <;> rfl
    · have hcf : check_tool_installed shell "nvm" = false := by
        simpa using hc
      rcases hnvm : install_tool shell fuel "nvm" with ⟨b, tr⟩
      have htr := install_tool_nvm_trace shell fuel
      rw [hnvm] at htr
      simp only at htr
      cases b
      · rw [install_tool_succ_depsFail shell fuel "node"
          ⟨"nvm install --lts", "node --version", ["nvm"]⟩ tr rfl
          (install_deps_cons_fail shell fuel "nvm" [] tr hcf hnvm)]
        rcases htr with rfl | rfl
        · left; rfl
        · right; left; rfl
      · rw [install_tool_succ_depsOk shell fuel "node"
          ⟨"nvm install --lts", "node --version", ["nvm"]⟩ (tr ++ []) rfl
          (install_deps_cons_ok shell fuel "nvm" [] tr [] true hcf hnvm
            (install_deps_nil shell fuel))]
        rcases htr with rfl | rfl
        · right; right; left
          split <;> rfl
        · right; right; right
          split <;> rfl

/-- Claim C4: if a tool has a dependency that is not installed and whose
installation fails, then installing the tool fails and the tool's own
installation command is never executed. -/
theorem C4_dependency_failure_aborts (shell : String → Bool) (fuel : Nat)
    (name : String) (spec : ToolSpec) (d : String)
    (hlook : tools_cache name = some spec)
    (hd : d ∈ spec.dependencies)
    (hni : check_tool_installed shell d = false)
    (hfail : (install_tool shell fuel d).1 = false) :
    (install_tool shell (fuel + 1) name).1 = false
    ∧ name ∉ (install_tool shell (fuel + 1) name).2 := by
  have hdf := install_deps_fail shell fuel spec.dependencies d hd hni hfail
  have hres : install_tool shell (fuel + 1) name
      = (false, (install_deps shell fuel spec.dependencies).2) := by
    simp only [install_tool, hlook]
    rw [show install_deps shell fuel spec.dependencies
        = (false, (install_deps shell fuel spec.dependencies).2) from by rw [← hdf]]
  rw [hres]
  refine ⟨rfl, ?_⟩
  rcases tools_cache_deps_inversion name spec hlook (List.ne_nil_of_mem hd)
    with ⟨rfl, rfl⟩ | ⟨rfl, rfl⟩
  · have hdq : d = "nvm" := by simpa using hd
    subst hdq
    rcases hnvm : install_tool shell fuel "nvm" with ⟨b, tr⟩
    have htr := install_tool_nvm_trace shell fuel
    rw [hnvm] at htr
    simp only at htr
    have hb : b = false := by
      rw [hnvm] at hfail
      simpa using hfail
    subst hb
    simp only [install_deps, hni, Bool.false_eq_true, if_false, hnvm]
    rcases htr with rfl | rfl <;> decide
  · have hdq : d = "node" := by simpa using hd
    subst hdq
    rcases hnode : install_tool shell fuel "node" with ⟨b, tr⟩
    have htr := install_tool_node_trace shell fuel
    rw [hnode] at htr
    simp only at htr
    have hb : b = false := by
      rw [hnode] at hfail
      simpa using hfail
    subst hb
    simp only [install_deps, hni, Bool.false_eq_true, if_false, hnode]
    rcases htr with rfl | rfl | rfl | rfl <;> decide

/-- Witness for claim C4: installing `node` with a shell on which
everything fails — the `nvm` dependency check and installation fail, so
`node`'s own installation command is never reached. -/
theorem C4_witness :
    (install_tool (fun _ => false) 1 "node").1 = false
    ∧ "node" ∉ (install_tool (fun _ => false) 1 "node").2 :=
  C4_dependency_failure_aborts (fun _ => false) 0 "node"
    ⟨"nvm install --lts", "node --version", ["nvm"]⟩ "nvm" rfl (by decide) rfl
    (by simp [install_tool])

/-! ## Claim C7 -/

/-- Claim C7 counterexample: the text `xdocker-composey` contains the
substring `docker-compose`, yet detection (word-boundary regexes) finds
neither `docker` nor `docker-compose`. -/
theorem C7_counterexample :
    ¬ ("docker" ∈ detect_tools "xdocker-composey"
       ∧ "docker-compose" ∈ detect_tools "xdocker-composey") := by
  decide

/-- Matching a literal pattern against input that spells the literal
case-insensitively consumes exactly that chunk and continues. -/
theorem matchRE_litL (w : List Char) : ∀ (m rest : List Char) (prev : Option Char)
    (k : Option Char → List Char → Bool), m.map Char.toLower = w →
    matchRE (litL w) prev (m ++ rest) k = k (lastO prev m) rest := by
  induction w with
  | nil =>
    intro m rest prev k hm
    have : m = [] := List.map_eq_nil_iff.mp hm
    subst this
    rfl
  | cons c w ih =>
    intro m rest prev k hm
    cases m with
    | nil => simp at hm
    | cons a m =>
      simp only [List.map_cons, List.cons.injEq] at hm
      obtain ⟨h1, h2⟩ := hm
      simp only [litL, matchRE, List.cons_append]
      rw [show (a.toLower == c) = true from by rw [h1]; exact beq_self_eq_true c]
      simp only [Bool.true_and]
      exact ih m rest (some a) k h2

/-- Lowercasing preserves ASCII word-character status upward: if the
lowercased character is a word character, so is the original. -/
theorem isWordChar_of_toLower (a c : Char) (h : a.toLower = c)
    (hc : isWordChar c = true) : isWordChar a = true := by
  have h' : (if a.toNat ≥ 65 ∧ a.toNat ≤ 90 then Char.ofNat (a.toNat + 32) else a) = c := h
  split at h'
  · rename_i hr
    simp only [isWordChar, Bool.or_eq_true, Bool.and_eq_true, decide_eq_true_eq]
    exact Or.inl (Or.inl (Or.inl ⟨hr.1, hr.2⟩))
  · rw [h']
    exact hc

/-- A chunk spelling a word whose last letter is a word character ends in
a word character. -/
theorem lastO_word (m : List Char) : ∀ (prev : Option Char) (w : List Char),
    m.map Char.toLower = w → ∀ c, w.getLast? = some c → isWordChar c = true →
    ∃ a, lastO prev m = some a ∧ isWordChar a = true := by
  induction m with
  | nil =>
    intro prev w hm c hlast _
    rw [← hm] at hlast
    simp at hlast
  | cons a m ih =>
    intro prev w hm c hlast hc
    cases m with
    | nil =>
      rw [← hm] at hlast
      simp only [List.map_cons, List.map_nil, List.getLast?_singleton,
        Option.some.injEq] at hlast
      exact ⟨a, rfl, isWordChar_of_toLower a c hlast hc⟩
    | cons b m =>
      rw [← hm] at hlast
      simp only [List.map_cons] at hlast
      rw [List.getLast?_cons_cons] at hlast
      have := ih (some a) ((b :: m).map Char.toLower) rfl c (by simpa using hlast) hc
      exact this

/-- A chunk spelling a word whose first letter is a word character starts
with a word character. -/
theorem head_word (m : List Char) (w : List Char) (hm : m.map Char.toLower = w)
    (c : Char) (hw : w.head? = some c) (hc : isWordChar c = true) :
    ∃ a rest, m = a :: rest ∧ isWordChar a = true := by
  cases m with
  | nil =>
    rw [← hm] at hw
    simp at hw
  | cons a m =>
    refine ⟨a, m, rfl, ?_⟩
    rw [← hm] at hw
    simp only [List.map_cons, List.head?_cons, Option.some.injEq] at hw
    exact isWordChar_of_toLower a c hw hc

/-- A boundary holds between an absent-or-non-word left context and a
word character. -/
theorem isBoundary_start (p : Option Char) (ch : Char) (rest : List Char)
    (hp : nonWordOpt p = true) (hch : isWordChar ch = true) :
    isBoundary p (ch :: rest) = true := by
  cases p with
  | none => simp [isBoundary, hch]
  | some c =>
    have hcw : isWordChar c = false := by simpa [nonWordOpt] using hp
    simp [isBoundary, hcw, hch]

/-- A boundary holds between a word character and an absent-or-non-word
right context. -/
theorem isBoundary_end (a : Char) (s : List Char)
    (ha : isWordChar a = true) (hs : nonWordOpt s.head? = true) :
    isBoundary (some a) s = true := by
  cases s with
  | nil => simp [isBoundary, ha]
  | cons x r =>
    have hxw : isWordChar x = false := by simpa [nonWordOpt] using hs
    simp [isBoundary, ha, hxw]

/-- If the pattern matches at the position right after `pre`, the search
from the start succeeds. -/
theorem searchFrom_append (re : RE) (pre : List Char) : ∀ (prev : Option Char)
    (s : List Char),
    matchRE re (lastO prev pre) s (fun _ _ => true) = true →
    searchFrom re prev (pre ++ s) = true := by
  induction pre with
  | nil =>
    intro prev s h
    simp only [lastO] at h
    cases s with
    | nil => simpa [searchFrom] using h
    | cons c rest => simp [searchFrom, h]
  | cons a pre ih =>
    intro prev s h
    have := ih (some a) s h
    simp [searchFrom, this]

/-- A pattern-table entry whose pattern matches the text contributes its
tool name to the detection result. -/
theorem mem_detect_toolsL (key : String) (re : RE) (text : List Char)
    (hmem : (key, re) ∈ tool_patterns) (hs : reSearchL re text = true) :
    key ∈ detect_toolsL text := by
  unfold detect_toolsL
  exact List.mem_map.mpr ⟨(key, re), List.mem_filter.mpr ⟨hmem, hs⟩, rfl⟩

/-- Claim C7 as amended: for every text in which `docker-compose` or
`docker compose` occurs case-insensitively as a word-bounded substring —
not immediately preceded or followed by a word character — detection
includes both `docker` and `docker-compose`. -/
theorem C7_amended_word_bounded_occurrence (pre d c post : List Char) (sep : Char)
    (hd : d.map Char.toLower = "docker".data)
    (hc : c.map Char.toLower = "compose".data)
    (hsep : sep = '-' ∨ sep = ' ')
    (hpre : nonWordOpt (lastO none pre) = true)
    (hpost : nonWordOpt post.head? = true) :
    "docker" ∈ detect_toolsL (pre ++ (d ++ sep :: (c ++ post)))
    ∧ "docker-compose" ∈ detect_toolsL (pre ++ (d ++ sep :: (c ++ post))) := by
  have hsepw : isWordChar sep = false := by rcases hsep with rfl | rfl <;> decide
  have hsepl : ([' ', '-'].contains sep.toLower) = true := by
    rcases hsep with rfl | rfl <;> decide
  have hb1 : isBoundary (lastO none pre) (d ++ (sep :: (c ++ post))) = true := by
    obtain ⟨a, rest', heq, ha⟩ := head_word d "docker".data hd 'd' (by decide) (by decide)
    rw [heq, List.cons_append]
    exact isBoundary_start _ a _ hpre ha
  obtain ⟨w1, hw1, hw1w⟩ := lastO_word d (lastO none pre) "docker".data hd 'r'
    (by decide) (by decide)
  obtain ⟨w2, hw2, hw2w⟩ := lastO_word c (some sep) "compose".data hc 'e'
    (by decide) (by decide)
  have hafter : nonWordOpt (sep :: (c ++ post)).head? = true := by
    simp [nonWordOpt, hsepw]
  constructor
  · refine mem_detect_toolsL "docker" re_docker _ (by simp [tool_patterns]) ?_
    unfold reSearchL
    apply searchFrom_append
    show (isBoundary (lastO none pre) (d ++ sep :: (c ++ post)) &&
        matchRE (litL "docker".data) (lastO none pre) (d ++ sep :: (c ++ post))
          (fun p r => matchRE RE.wb p r (fun _ _ => true))) = true
    rw [hb1, matchRE_litL "docker".data d (sep :: (c ++ post)) (lastO none pre) _ hd]
    show (true && (isBoundary (lastO (lastO none pre) d) (sep :: (c ++ post)) && true)) = true
    rw [hw1, isBoundary_end w1 _ hw1w hafter]
    rfl
  · refine mem_detect_toolsL "docker-compose" re_docker_compose _ (by simp [tool_patterns]) ?_
    unfold reSearchL
    apply searchFrom_append
    show (isBoundary (lastO none pre) (d ++ sep :: (c ++ post)) &&
        matchRE (litL "docker".data) (lastO none pre) (d ++ sep :: (c ++ post))
          (fun p r => matchRE (.seq (.cls [' ', '-']) (.seq (litL "compose".data) .wb)) p r
            (fun _ _ => true))) = true
    rw [hb1, matchRE_litL "docker".data d (sep :: (c ++ post)) (lastO none pre) _ hd]
    show (true && ([' ', '-'].contains sep.toLower &&
        matchRE (litL "compose".data) (some sep) (c ++ post)
          (fun p r => matchRE RE.wb p r (fun _ _ => true)))) = true
    rw [hsepl, matchRE_litL "compose".data c post (some sep) _ hc]
    show (true && (true && (isBoundary (lastO (some sep) c) post && true))) = true
    rw [hw2, isBoundary_end w2 _ hw2w hpost]
    rfl

/-- Witness for the amended claim C7: `see Docker-Compose now`. -/
theorem C7_witness :
    "docker" ∈ detect_toolsL ("see ".data ++ ("Docker".data ++ '-' :: ("Compose".data ++ " now".data)))
    ∧ "docker-compose" ∈ detect_toolsL ("see ".data ++ ("Docker".data ++ '-' :: ("Compose".data ++ " now".data))) :=
  C7_amended_word_bounded_occurrence "see ".data "Docker".data "Compose".data " now".data '-'
    (by decide) (by decide) (Or.inl rfl) (by decide) (by decide)
